import Mathlib

/-!
Shallow embedding of the offline-first reconciliation subsystem:
the record service (src/services/taskService.ts) and the sync
orchestrator (src/services/syncService.ts, staged in src/routes/sync.ts).

The SQLite store is modelled as two lists of rows (tasks, sync_queue);
each `db.run` statement is a `Store → Store` function, and the service
methods compose them exactly as the source does (two separate statements
per mutation, no transaction).  Timestamps are naturals, network and
clock effects are passed in explicitly.
-/

namespace OfflineSync

inductive SyncStatus
  | pending
  | synced
  | error
deriving DecidableEq, Repr

inductive Op
  | create
  | update
  | delete
deriving DecidableEq, Repr

/-- Row of the `tasks` table / the `Task` interface of src/types. -/
structure Task where
  id : String
  title : String
  description : String
  completed : Bool
  created_at : Nat
  updated_at : Nat
  is_deleted : Bool
  sync_status : SyncStatus
  server_id : Option String
  last_synced_at : Option Nat
deriving DecidableEq, Repr

/-- Partial task object (TypeScript `Partial<Task>`): a field is `some`
exactly when the key is present. -/
structure TaskUpdates where
  id : Option String := none
  title : Option String := none
  description : Option String := none
  completed : Option Bool := none
  is_deleted : Option Bool := none
  server_id : Option String := none
deriving DecidableEq, Repr

/-- Serialized `data` column of sync_queue: `JSON.stringify(task)` for a
create, `JSON.stringify(updates)` for an update, the empty object for a
delete (spec section 9 describes exactly this tagged shape). -/
inductive Payload
  | snapshot (t : Task)
  | fieldsOf (u : TaskUpdates)
  | emptyObj
deriving DecidableEq, Repr

/-- Row of the `sync_queue` table. -/
structure SyncQueueItem where
  id : String
  task_id : String
  operation : Op
  data : Payload
  created_at : Nat
  retry_count : Nat
  error_message : Option String
deriving DecidableEq, Repr

/-- The two tables the subsystem touches. -/
structure Store where
  tasks : List Task
  queue : List SyncQueueItem
deriving DecidableEq, Repr

/-- Statement `INSERT INTO tasks (...) VALUES (...)`. -/
def insertTaskStmt (t : Task) (s : Store) : Store :=
  { s with tasks := s.tasks ++ [t] }

/-- Modelled from the spec: src/db/database.ts (the sync_queue schema) is
not among the staged source files, and the services insert only
`(id, task_id, operation, data)`, leaving `created_at` and `retry_count`
to schema defaults.  Per spec sections 2 and 4.3 an entry carries its
creation time and a retry counter starting at 0, so the append stamps the
current instant and retry_count 0.  Statement
`INSERT INTO sync_queue (id, task_id, operation, data) VALUES (...)`. -/
def insertQueueStmt (qid tid : String) (op : Op) (d : Payload) (now : Nat)
    (s : Store) : Store :=
  { s with queue := s.queue ++ [⟨qid, tid, op, d, now, 0, none⟩] }

/-- Query `SELECT * FROM tasks WHERE id = ? LIMIT 1`. -/
def findRow (rows : List Task) (id : String) : Option Task :=
  rows.find? fun t => t.id == id

/-- TaskService.getTask: null when absent or soft-deleted. -/
def getTask (s : Store) (id : String) : Option Task :=
  match findRow s.tasks id with
  | none => none
  | some row => if row.is_deleted then none else some row

/-- Task object built by createTask: `taskData.id || uuidv4()` (the empty
string is falsy), nullish defaults for title/description/completed,
`is_deleted false`, `sync_status pending`, both timestamps `now`. -/
def buildTask (now : Nat) (genId : String) (td : TaskUpdates) : Task :=
  { id := match td.id with
      | some i => if i = "" then genId else i
      | none => genId
    title := td.title.getD "Untitled"
    description := td.description.getD ""
    completed := td.completed.getD false
    created_at := now
    updated_at := now
    is_deleted := false
    sync_status := SyncStatus.pending
    server_id := td.server_id
    last_synced_at := none }

/-- TaskService.createTask as the source runs it: two separate `db.run`
statements with no transaction.  The two Bool flags say whether the
corresponding statement throws; a throwing statement applies nothing, a
statement that already succeeded stays applied, and `none` is returned
when anything threw. -/
def createTaskRun (s : Store) (now : Nat) (genId qid : String)
    (td : TaskUpdates) (failTaskWrite failQueueWrite : Bool) :
    Option Task × Store :=
  let task := buildTask now genId td
  if failTaskWrite then (none, s)
  else
    let s1 := insertTaskStmt task s
    if failQueueWrite then (none, s1)
    else (some task, insertQueueStmt qid task.id Op.create (Payload.snapshot task) now s1)

/-- TaskService.createTask with both statements succeeding. -/
def createTask (s : Store) (now : Nat) (genId qid : String)
    (td : TaskUpdates) : Option Task × Store :=
  createTaskRun s now genId qid td false false

/-- Merged object `\x7b ...existing, ...updates, updated_at: now,
sync_status: pending \x7d` of updateTask. -/
def mergeTask (existing : Task) (u : TaskUpdates) (now : Nat) : Task :=
  { existing with
      id := u.id.getD existing.id
      title := u.title.getD existing.title
      description := u.description.getD existing.description
      completed := u.completed.getD existing.completed
      is_deleted := u.is_deleted.getD existing.is_deleted
      server_id := match u.server_id with
        | some x => some x
        | none => existing.server_id
      updated_at := now
      sync_status := SyncStatus.pending }

/-- Effect on one row of updateTask's UPDATE statement. -/
def updRow (id : String) (u : Task) (now : Nat) (t : Task) : Task :=
  if t.id = id then
    { t with
        title := u.title
        description := u.description
        completed := u.completed
        updated_at := now
        is_deleted := u.is_deleted
        sync_status := SyncStatus.pending }
  else t

/-- Statement `UPDATE tasks SET title, description, completed, updated_at,
is_deleted, sync_status WHERE id = ?` with the merged values. -/
def updateTaskRowStmt (id : String) (u : Task) (now : Nat) (s : Store) : Store :=
  { s with tasks := s.tasks.map (updRow id u now) }

/-- TaskService.updateTask as the source runs it: read, then the row
UPDATE, then the queue INSERT, as two separate fallible statements. -/
def updateTaskRun (s : Store) (now : Nat) (qid id : String) (u : TaskUpdates)
    (failRowWrite failQueueWrite : Bool) : Option Task × Store :=
  match getTask s id with
  | none => (none, s)
  | some existing =>
    let updated := mergeTask existing u now
    if failRowWrite then (none, s)
    else
      let s1 := updateTaskRowStmt id updated now s
      if failQueueWrite then (none, s1)
      else (some updated, insertQueueStmt qid id Op.update (Payload.fieldsOf u) now s1)

/-- TaskService.updateTask with both statements succeeding. -/
def updateTask (s : Store) (now : Nat) (qid id : String) (u : TaskUpdates) :
    Option Task × Store :=
  updateTaskRun s now qid id u false false

/-- Effect on one row of deleteTask's UPDATE statement. -/
def delRow (id : String) (now : Nat) (t : Task) : Task :=
  if t.id = id then
    { t with is_deleted := true, updated_at := now, sync_status := SyncStatus.pending }
  else t

/-- Statement `UPDATE tasks SET is_deleted = 1, updated_at, sync_status
WHERE id = ?`. -/
def deleteTaskRowStmt (id : String) (now : Nat) (s : Store) : Store :=
  { s with tasks := s.tasks.map (delRow id now) }

/-- TaskService.deleteTask as the source runs it. -/
def deleteTaskRun (s : Store) (now : Nat) (qid id : String)
    (failRowWrite failQueueWrite : Bool) : Bool × Store :=
  match getTask s id with
  | none => (false, s)
  | some _ =>
    if failRowWrite then (false, s)
    else
      let s1 := deleteTaskRowStmt id now s
      if failQueueWrite then (false, s1)
      else (true, insertQueueStmt qid id Op.delete Payload.emptyObj now s1)

/-- TaskService.deleteTask with both statements succeeding. -/
def deleteTask (s : Store) (now : Nat) (qid id : String) : Bool × Store :=
  deleteTaskRun s now qid id false false

/-- Configuration read in SyncService's constructor (env-derived with
defaults '10' and '3'). -/
structure Config where
  batchSize : Nat
  maxRetries : Nat
deriving DecidableEq, Repr

/-- Values with the env unset: SYNC_BATCH_SIZE 10, SYNC_MAX_RETRIES 3. -/
def defaultConfig : Config := { batchSize := 10, maxRetries := 3 }

/-- Per-item status of a BatchSyncResponse. -/
inductive ItemStatus
  | success
  | conflict
  | error
deriving DecidableEq, Repr

/-- Element of `response.processed_items`. -/
structure ProcessedItem where
  client_id : String
  server_id : Option String
  status : ItemStatus
  resolved_data : Option TaskUpdates
  error : Option String
deriving DecidableEq, Repr

/-- Element of SyncResult.errors. -/
structure SyncError where
  task_id : String
  operation : String
  error : String
  timestamp : Nat
deriving DecidableEq, Repr

/-- Return value of SyncService.sync. -/
structure SyncResult where
  success : Bool
  synced_items : Nat
  failed_items : Nat
  errors : List SyncError
deriving DecidableEq, Repr

/-- Effect on one row of the status UPDATE of updateSyncStatus. -/
def markRow (tid : String) (st : SyncStatus) (sid : Option String) (now : Nat)
    (t : Task) : Task :=
  if t.id = tid then
    { t with
        sync_status := st
        server_id := match sid with
          | some x => some x
          | none => t.server_id
        last_synced_at := some now }
  else t

/-- Statement `UPDATE tasks SET sync_status = ?, server_id = COALESCE(?,
server_id), last_synced_at = ? WHERE id = ?` of updateSyncStatus; note
that last_synced_at is assigned for either status. -/
def markStatusStmt (tid : String) (st : SyncStatus) (sid : Option String)
    (now : Nat) (s : Store) : Store :=
  { s with tasks := s.tasks.map (markRow tid st sid now) }

/-- Statement `DELETE FROM sync_queue WHERE task_id = ?`. -/
def deleteQueueByTaskStmt (tid : String) (s : Store) : Store :=
  { s with queue := s.queue.filter fun q => decide (q.task_id ≠ tid) }

/-- SyncService.updateSyncStatus: the status UPDATE, then — only when the
status is synced — the queue DELETE keyed on the task id. -/
def updateSyncStatus (now : Nat) (tid : String) (st : SyncStatus)
    (sid : Option String) (s : Store) : Store :=
  let s1 := markStatusStmt tid st sid now s
  if st = SyncStatus.synced then deleteQueueByTaskStmt tid s1 else s1

/-- Effect on one row of `UPDATE tasks SET sync_status = 'error'`. -/
def errRow (tid : String) (t : Task) : Task :=
  if t.id = tid then { t with sync_status := SyncStatus.error } else t

/-- Statement `UPDATE tasks SET sync_status = 'error' WHERE id = ?`. -/
def setTaskErrorStmt (tid : String) (s : Store) : Store :=
  { s with tasks := s.tasks.map (errRow tid) }

/-- Effect on one entry of the retry UPDATE of handleSyncError. -/
def retryRow (qid : String) (n : Nat) (msg : String) (q : SyncQueueItem) :
    SyncQueueItem :=
  if q.id = qid then { q with retry_count := n, error_message := some msg } else q

/-- Statement `UPDATE sync_queue SET retry_count = ?, error_message = ?
WHERE id = ?`. -/
def updateQueueRetryStmt (qid : String) (n : Nat) (msg : String) (s : Store) :
    Store :=
  { s with queue := s.queue.map (retryRow qid n msg) }

/-- SyncService.handleSyncError: both branches persist the incremented
retry count with the message; past the threshold the task row is first set
to error. -/
def handleSyncError (cfg : Config) (item : SyncQueueItem) (msg : String)
    (s : Store) : Store :=
  let newRetryCount := item.retry_count + 1
  if newRetryCount > cfg.maxRetries then
    updateQueueRetryStmt item.id newRetryCount msg (setTaskErrorStmt item.task_id s)
  else
    updateQueueRetryStmt item.id newRetryCount msg s

/-- SyncService.resolveConflict: last-write-wins on updated_at, ties keep
the local copy. -/
def resolveConflict (localTask serverTask : Task) : Task :=
  if serverTask.updated_at ≤ localTask.updated_at then localTask else serverTask

/-- The `server_id` field of the object `\x7b server_id: item.server_id,
...item.resolved_data \x7d` that sync passes to updateSyncStatus, after
the falsy coercion `serverData?.server_id || null` (the empty string is
falsy). -/
def effServerId (it : ProcessedItem) : Option String :=
  let sid := match it.resolved_data with
    | some rd => match rd.server_id with
      | some x => some x
      | none => it.server_id
    | none => it.server_id
  match sid with
  | some x => if x = "" then none else some x
  | none => none

/-- String stored in the `operation` field of a batch-failure error entry. -/
def opName : Op → String
  | Op.create => "create"
  | Op.update => "update"
  | Op.delete => "delete"

/-- Accumulated loop state of sync(): the store plus successCount,
failCount and the error list. -/
structure Acc where
  store : Store
  successCount : Nat
  failCount : Nat
  errors : List SyncError
deriving Repr

/-- Per-item dispatch of sync() on one element of processed_items:
success, or conflict with resolved data, counts as synced and runs
updateSyncStatus with status synced; anything else counts as failed,
records an error entry with operation string "sync", and runs
updateSyncStatus with status error. -/
def dispatchItem (now : Nat) (acc : Acc) (it : ProcessedItem) : Acc :=
  if it.status = ItemStatus.success then
    { acc with
        store := updateSyncStatus now it.client_id SyncStatus.synced (effServerId it) acc.store
        successCount := acc.successCount + 1 }
  else if it.status = ItemStatus.conflict ∧ it.resolved_data.isSome = true then
    { acc with
        store := updateSyncStatus now it.client_id SyncStatus.synced (effServerId it) acc.store
        successCount := acc.successCount + 1 }
  else
    { acc with
        store := updateSyncStatus now it.client_id SyncStatus.error none acc.store
        failCount := acc.failCount + 1
        errors := acc.errors ++ [⟨it.client_id, "sync", it.error.getD "Unknown sync error", now⟩] }

/-- Catch path of sync() for one queue entry of a batch whose send threw:
count a failure, record an error entry, run handleSyncError. -/
def failItem (cfg : Config) (now : Nat) (msg : String) (acc : Acc)
    (e : SyncQueueItem) : Acc :=
  { acc with
      store := handleSyncError cfg e msg acc.store
      failCount := acc.failCount + 1
      errors := acc.errors ++ [⟨e.task_id, opName e.operation, msg, now⟩] }

/-- Behaviour of the peer across the run: batch index to either a thrown
transport error or the processed_items list of the response. -/
def Net : Type := Nat → Except String (List ProcessedItem)

/-- Slicing loop `for (i = 0; i < n; i += batchSize) slice(i, i+batchSize)`
as a chunk list.  (A batch size of 0 would make the source loop forever;
the model returns the whole list as one chunk, and every theorem that
depends on batching assumes a positive batch size.) -/
def chunksGo (n : Nat) : Nat → List α → List (List α)
  | _, [] => []
  | 0, l => [l]
  | fuel + 1, x :: xs => (x :: xs).take n :: chunksGo n fuel ((x :: xs).drop n)

/-- Chunk list of the slicing loop; the fuel (the list's length) is spent
strictly for any positive batch size. -/
def chunks (n : Nat) (l : List α) : List (List α) :=
  chunksGo n l.length l

/-- Batch loop of sync(): each batch is sent (`net i`); a response is
dispatched item by item, a thrown send is converted into per-entry
failures; either way the loop continues with the next batch. -/
def syncBatches (cfg : Config) (now : Nat) (net : Net) :
    Nat → Acc → List (List SyncQueueItem) → Acc
  | _, acc, [] => acc
  | i, acc, b :: bs =>
    let acc1 := match net i with
      | Except.ok items => items.foldl (dispatchItem now) acc
      | Except.error msg => b.foldl (failItem cfg now msg) acc
    syncBatches cfg now net (i + 1) acc1 bs

/-- Query `SELECT * FROM sync_queue ORDER BY created_at ASC` (stable on
ties, which the services never produce under a strictly monotone clock). -/
def sortQueue (q : List SyncQueueItem) : List SyncQueueItem :=
  q.insertionSort fun a b => a.created_at ≤ b.created_at

/-- SyncService.sync: read the queue ordered by creation time, process
every batch, return the aggregate; success is failCount = 0. -/
def sync (cfg : Config) (now : Nat) (net : Net) (s : Store) :
    SyncResult × Store :=
  let queueItems := sortQueue s.queue
  let acc := syncBatches cfg now net 0 ⟨s, 0, 0, []⟩ (chunks cfg.batchSize queueItems)
  ({ success := decide (acc.failCount = 0)
     synced_items := acc.successCount
     failed_items := acc.failCount
     errors := acc.errors }, acc.store)

/-- Observable behaviour of one probe attempt against GET /health. -/
structure ProbeBehaviour where
  latency : Nat
  response : Except String Nat
deriving Repr

/-- Call `axios.get(apiUrl/health, timeout 5000)`: rejects past the
timeout, on a network error, or on a status outside 2xx (axios's default
validateStatus). -/
def axiosGetHealth (b : ProbeBehaviour) : Except String Unit :=
  if 5000 < b.latency then Except.error "timeout"
  else
    match b.response with
    | Except.error e => Except.error e
    | Except.ok status =>
      if 200 ≤ status ∧ status < 300 then Except.ok () else Except.error "bad status"

/-- SyncService.checkConnectivity: the probe inside try/catch, so the
method itself is a total Bool-valued function. -/
def checkConnectivity (b : ProbeBehaviour) : Bool :=
  match axiosGetHealth b with
  | Except.ok _ => true
  | Except.error _ => false

/-!
Interleaving model for concurrent sync() runs.  A run suspends at each
awaited db statement, so two runs may interleave at statement
granularity.  A run is modelled by the db statements it issues: first the
queue read, then — with a peer that answers success for every item — per
snapshot entry the two statements of updateSyncStatus.  The source has no
lock around sync(), so nothing prevents both runs from reading the queue
before either deletes.
-/

/-- One awaited db statement a sync run issues. -/
inductive DbAct
  | readQueue
  | markSynced (tid : String)
  | deleteByTask (tid : String)
deriving DecidableEq, Repr

/-- Statements a run issues after its queue read when every item comes
back success with no server-assigned fields: per entry, the status UPDATE
then the queue DELETE. -/
def planOf (snapshot : List SyncQueueItem) : List DbAct :=
  snapshot.foldr
    (fun e acts => DbAct.markSynced e.task_id :: DbAct.deleteByTask e.task_id :: acts) []

/-- Effect of one statement on the shared store. -/
def applyAct (now : Nat) (s : Store) : DbAct → Store
  | DbAct.readQueue => s
  | DbAct.markSynced tid => markStatusStmt tid SyncStatus.synced none now s
  | DbAct.deleteByTask tid => deleteQueueByTaskStmt tid s

/-- Progress of one run: before its queue read, or holding its remaining
statements. -/
inductive RunState
  | notStarted
  | running (pending : List DbAct)
deriving DecidableEq, Repr

/-- One scheduled step of a run: the queue read snapshots the shared
queue and fixes the run's remaining statements; afterwards the run issues
them one per step. -/
def stepRun (now : Nat) (s : Store) : RunState → Store × RunState × List DbAct
  | RunState.notStarted => (s, RunState.running (planOf (sortQueue s.queue)), [DbAct.readQueue])
  | RunState.running [] => (s, RunState.running [], [])
  | RunState.running (a :: rest) => (applyAct now s a, RunState.running rest, [a])

/-- Shared store, the two runs, and the statement log. -/
structure World where
  store : Store
  run1 : RunState
  run2 : RunState
  log : List (Bool × DbAct)
deriving Repr

/-- Schedule step: true steps run 1, false steps run 2. -/
def stepWorld (now : Nat) (w : World) (which : Bool) : World :=
  if which then
    let r := stepRun now w.store w.run1
    { w with store := r.1, run1 := r.2.1, log := w.log ++ r.2.2.map fun a => (true, a) }
  else
    let r := stepRun now w.store w.run2
    { w with store := r.1, run2 := r.2.1, log := w.log ++ r.2.2.map fun a => (false, a) }

/-- Execute a schedule. -/
def execSched (now : Nat) (sched : List Bool) (w : World) : World :=
  sched.foldl (stepWorld now) w

/-- Number of times any run marked the record synced. -/
def markCount (log : List (Bool × DbAct)) (tid : String) : Nat :=
  (log.filter fun p => decide (p.2 = DbAct.markSynced tid)).length

/-- Number of times any run issued the queue DELETE for the record. -/
def delCount (log : List (Bool × DbAct)) (tid : String) : Nat :=
  (log.filter fun p => decide (p.2 = DbAct.deleteByTask tid)).length

/-!
Sequences of local mutations through the record service, driven by a
strictly monotone clock — exercised by the ordering claim on the
mutation log.
-/

/-- One local mutation request. -/
inductive Mut
  | mkCreate (td : TaskUpdates)
  | mkUpdate (id : String) (u : TaskUpdates)
  | mkDelete (id : String)
deriving Repr

/-- Fresh task id for a create (uuidv4 in the source). -/
def freshT (clk : Nat) : String := "t" ++ Nat.repr clk

/-- Fresh queue entry id (uuidv4 in the source). -/
def freshQ (clk : Nat) : String := "q" ++ Nat.repr clk

/-- Apply one mutation at the current clock instant and advance the
clock (new Date() is strictly monotone across successive mutations). -/
def applyMut (p : Store × Nat) (m : Mut) : Store × Nat :=
  match m with
  | Mut.mkCreate td => ((createTask p.1 p.2 (freshT p.2) (freshQ p.2) td).2, p.2 + 1)
  | Mut.mkUpdate id u => ((updateTask p.1 p.2 (freshQ p.2) id u).2, p.2 + 1)
  | Mut.mkDelete id => ((deleteTask p.1 p.2 (freshQ p.2) id).2, p.2 + 1)

/-- Run a sequence of local mutations. -/
def runMuts (s : Store) (clk : Nat) (ms : List Mut) : Store × Nat :=
  ms.foldl applyMut (s, clk)

/-- Sum over all batches of how many per-entry outcomes the run must
account for: the response's processed_items for a delivered batch, every
entry of the batch for a thrown send. -/
def expectedHandled (net : Net) : Nat → List (List SyncQueueItem) → Nat
  | _, [] => 0
  | i, b :: bs =>
    (match net i with
      | Except.ok items => items.length
      | Except.error _ => b.length) + expectedHandled net (i + 1) bs

/-!
Concrete fixtures for counterexamples and witnesses.
-/

/-- Record with two outstanding queue entries. -/
def t1 : Task :=
  { id := "t1", title := "a", description := "", completed := false,
    created_at := 0, updated_at := 0, is_deleted := false,
    sync_status := SyncStatus.pending, server_id := none, last_synced_at := none }

/-- Create entry for t1, confirmed by the peer in the scenarios below. -/
def qA : SyncQueueItem :=
  { id := "A", task_id := "t1", operation := Op.create,
    data := Payload.snapshot t1, created_at := 1, retry_count := 0, error_message := none }

/-- Later, not yet confirmed update entry for the same record. -/
def qB : SyncQueueItem :=
  { id := "B", task_id := "t1", operation := Op.update,
    data := Payload.fieldsOf {}, created_at := 2, retry_count := 0, error_message := none }

/-- Store with one record and both entries queued. -/
def c1Store : Store := { tasks := [t1], queue := [qA, qB] }

/-- Peer that confirms exactly one item: success for the create of t1. -/
def c1Net : Net := fun _ =>
  Except.ok [{ client_id := "t1", server_id := some "srv1",
               status := ItemStatus.success, resolved_data := none, error := none }]

/-- Store with one record and its single queue entry. -/
def c6Store : Store := { tasks := [t1], queue := [qA] }

/-- Peer that answers an explicit per-item error for t1. -/
def c6Net : Net := fun _ =>
  Except.ok [{ client_id := "t1", server_id := none,
               status := ItemStatus.error, resolved_data := none, error := some "boom" }]

/-- Peer whose batch send throws. -/
def downNet : Net := fun _ => Except.error "ECONNREFUSED"

/-- Two sync runs over the store with one pending entry, neither started. -/
def world0 : World :=
  { store := c6Store, run1 := RunState.notStarted, run2 := RunState.notStarted, log := [] }

/-- Both runs read the queue before either writes. -/
def raceSched : List Bool := [true, false, true, true, false, false]

/-- Run 1 finishes before run 2 starts. -/
def serialSched : List Bool := [true, true, true, false, false, false]

/-- Update request carrying only is_deleted = true. -/
def delUpd : TaskUpdates := { is_deleted := some true }

/-!
Theorems.
-/


theorem markRow_id (tid : String) (st : SyncStatus) (sid : Option String)
    (now : Nat) (t : Task) : (markRow tid st sid now t).id = t.id := by
  unfold markRow
  split <;> rfl

theorem markRow_of_ne (tid : String) (st : SyncStatus) (sid : Option String)
    (now : Nat) (t : Task) (h : ¬ t.id = tid) : markRow tid st sid now t = t :=
  if_neg h

theorem markRow_of_eq (tid : String) (st : SyncStatus) (sid : Option String)
    (now : Nat) (t : Task) (h : t.id = tid) :
    (markRow tid st sid now t).sync_status = st ∧
    (markRow tid st sid now t).last_synced_at = some now ∧
    ∀ x, sid = some x → (markRow tid st sid now t).server_id = some x := by
  unfold markRow
  rw [if_pos h]
  refine ⟨rfl, rfl, ?_⟩
  intro x hx
  subst hx
  rfl

/-- C7: the client-local last-write-wins resolver is a total function of
the two records, keeping the local record whenever its updated_at is
greater than or equal to the peer record's (so equal instants favor the
local copy) and the peer record otherwise.  Determinism and totality are
inherent in resolveConflict being a Lean function. -/
theorem C7_resolveConflict_last_write_wins (l s : Task) :
    (s.updated_at ≤ l.updated_at → resolveConflict l s = l) ∧
    (l.updated_at < s.updated_at → resolveConflict l s = s) := by
  constructor
  · intro h
    simp [resolveConflict, h]
  · intro h
    simp [resolveConflict, not_le.mpr h]

/-- Witness for C7 at equal timestamps: the tie keeps the local copy. -/
theorem C7_witness :
    resolveConflict { t1 with updated_at := 7 } { t1 with updated_at := 7 }
      = { t1 with updated_at := 7 } :=
  (C7_resolveConflict_last_write_wins { t1 with updated_at := 7 }
    { t1 with updated_at := 7 }).1 (by decide)

/-- C8: checkConnectivity is a total Bool-valued function of the peer's
behaviour (the try/catch means it never throws), and it returns true
exactly when the health probe answers within the 5000 ms timeout with a
2xx status; any timeout, network error or non-2xx status yields false. -/
theorem C8_checkConnectivity_total (b : ProbeBehaviour) :
    checkConnectivity b = true ↔
      b.latency ≤ 5000 ∧ ∃ st, b.response = Except.ok st ∧ 200 ≤ st ∧ st < 300 := by
  rcases b with ⟨lat, resp⟩
  simp only [checkConnectivity, axiosGetHealth]
  by_cases h : 5000 < lat
  · simp only [if_pos h]
    constructor
    · intro hc
      exact absurd hc (by simp)
    · intro hc
      omega
  · cases resp with
    | error e => simp [h]
    | ok st =>
      by_cases h2 : 200 ≤ st ∧ st < 300
      · simp only [if_neg h, if_pos h2]
        constructor
        · intro _
          exact ⟨by omega, st, rfl, h2.1, h2.2⟩
        · intro _
          trivial
      · simp only [if_neg h, if_neg h2]
        constructor
        · intro hc
          exact absurd hc (by simp)
        · rintro ⟨_, st2, hst, hlo, hhi⟩
          cases hst
          exact absurd ⟨hlo, hhi⟩ h2

/-- Counterexample to C1 as stated: with two Mutation Log entries A and B
for record t1 and a peer response confirming only one item, the sync run
leaves the queue empty — the later, not-yet-confirmed entry B is deleted
too, because updateSyncStatus deletes from sync_queue by task_id. -/
theorem C1_counterexample_delete_by_task_id :
    c1Store.queue = [qA, qB] ∧
    (sync defaultConfig 100 c1Net c1Store).2.queue = [] := by decide

/-- C1 amended: on a success (or resolved-conflict) outcome the
orchestrator marks the record synced, stores a peer-assigned server id
when one is given (keeping the old one otherwise), sets last_synced_at to
the current instant, and deletes EVERY Mutation Log entry whose task_id
is the confirmed record's id — including later not-yet-confirmed entries
— leaving entries of other records unchanged. -/
theorem C1_amended_success_marks_and_deletes_all (s : Store) (now : Nat)
    (tid : String) (sid : Option String) :
    ((updateSyncStatus now tid SyncStatus.synced sid s).queue
        = s.queue.filter fun q => decide (q.task_id ≠ tid)) ∧
    (∀ q ∈ (updateSyncStatus now tid SyncStatus.synced sid s).queue, q.task_id ≠ tid) ∧
    (∀ t2 ∈ (updateSyncStatus now tid SyncStatus.synced sid s).tasks, t2.id = tid →
        t2.sync_status = SyncStatus.synced ∧ t2.last_synced_at = some now ∧
        ∀ x, sid = some x → t2.server_id = some x) ∧
    (∀ t2 ∈ (updateSyncStatus now tid SyncStatus.synced sid s).tasks, t2.id ≠ tid →
        t2 ∈ s.tasks) := by
  refine ⟨rfl, ?_, ?_, ?_⟩
  · intro q hq
    replace hq : q ∈ s.queue.filter (fun q2 => decide (q2.task_id ≠ tid)) := hq
    exact of_decide_eq_true (List.mem_filter.mp hq).2
  · intro t2 ht2 hid
    replace ht2 : t2 ∈ s.tasks.map (markRow tid SyncStatus.synced sid now) := ht2
    obtain ⟨a, hmem, ha⟩ := List.mem_map.mp ht2
    subst ha
    by_cases hcase : a.id = tid
    · exact markRow_of_eq tid SyncStatus.synced sid now a hcase
    · rw [markRow_of_ne tid SyncStatus.synced sid now a hcase] at hid
      exact absurd hid hcase
  · intro t2 ht2 hid
    replace ht2 : t2 ∈ s.tasks.map (markRow tid SyncStatus.synced sid now) := ht2
    obtain ⟨a, hmem, ha⟩ := List.mem_map.mp ht2
    subst ha
    by_cases hcase : a.id = tid
    · rw [markRow_id] at hid
      exact absurd hcase hid
    · rw [markRow_of_ne tid SyncStatus.synced sid now a hcase]
      exact hmem

/-- Witness for the amended C1 at the two-entry store. -/
theorem C1_amended_witness :
    ((updateSyncStatus 100 "t1" SyncStatus.synced (some "srv1") c1Store).queue
        = c1Store.queue.filter fun q => decide (q.task_id ≠ "t1")) ∧
    (∀ q ∈ (updateSyncStatus 100 "t1" SyncStatus.synced (some "srv1") c1Store).queue,
        q.task_id ≠ "t1") ∧
    (∀ t2 ∈ (updateSyncStatus 100 "t1" SyncStatus.synced (some "srv1") c1Store).tasks,
        t2.id = "t1" →
        t2.sync_status = SyncStatus.synced ∧ t2.last_synced_at = some 100 ∧
        ∀ x, some "srv1" = some x → t2.server_id = some x) ∧
    (∀ t2 ∈ (updateSyncStatus 100 "t1" SyncStatus.synced (some "srv1") c1Store).tasks,
        t2.id ≠ "t1" → t2 ∈ c1Store.tasks) :=
  C1_amended_success_marks_and_deletes_all c1Store 100 "t1" (some "srv1")

/-- Counterexample to C6 as stated: the record t1 starts with no
last_synced_at, the peer answers an explicit per-item error, and the sync
run leaves the record marked error WITH last_synced_at set to the current
instant — the error outcome goes through the same UPDATE statement as
success, which always assigns last_synced_at. -/
theorem C6_counterexample_error_sets_last_synced_at :
    t1.last_synced_at = none ∧
    (sync defaultConfig 100 c6Net c6Store).2.tasks =
      [{ t1 with sync_status := SyncStatus.error, last_synced_at := some 100 }] := by
  decide

/-- C6 amended: on an outcome other than success or resolved conflict the
orchestrator marks the record error, leaves the Mutation Log entry in
place, and records one error detail — but it also sets last_synced_at to
the current instant, because the error path reuses the same status UPDATE
as the success path. -/
theorem C6_amended_error_outcome (s : Store) (now : Nat) (tid : String) :
    ((updateSyncStatus now tid SyncStatus.error none s).queue = s.queue) ∧
    (∀ t2 ∈ (updateSyncStatus now tid SyncStatus.error none s).tasks, t2.id = tid →
        t2.sync_status = SyncStatus.error ∧ t2.last_synced_at = some now) ∧
    (∀ t2 ∈ (updateSyncStatus now tid SyncStatus.error none s).tasks, t2.id ≠ tid →
        t2 ∈ s.tasks) ∧
    (∀ acc it, it.status = ItemStatus.error →
        (dispatchItem now acc it).errors.length = acc.errors.length + 1 ∧
        (dispatchItem now acc it).failCount = acc.failCount + 1 ∧
        (dispatchItem now acc it).store
          = updateSyncStatus now it.client_id SyncStatus.error none acc.store) := by
  refine ⟨rfl, ?_, ?_, ?_⟩
  · intro t2 ht2 hid
    replace ht2 : t2 ∈ s.tasks.map (markRow tid SyncStatus.error none now) := ht2
    obtain ⟨a, hmem, ha⟩ := List.mem_map.mp ht2
    subst ha
    by_cases hcase : a.id = tid
    · have h3 := markRow_of_eq tid SyncStatus.error none now a hcase
      exact ⟨h3.1, h3.2.1⟩
    · rw [markRow_of_ne tid SyncStatus.error none now a hcase] at hid
      exact absurd hid hcase
  · intro t2 ht2 hid
    replace ht2 : t2 ∈ s.tasks.map (markRow tid SyncStatus.error none now) := ht2
    obtain ⟨a, hmem, ha⟩ := List.mem_map.mp ht2
    subst ha
    by_cases hcase : a.id = tid
    · rw [markRow_id] at hid
      exact absurd hcase hid
    · rw [markRow_of_ne tid SyncStatus.error none now a hcase]
      exact hmem
  · intro acc it hst
    have h1 : ¬ it.status = ItemStatus.success := by
      rw [hst]
      intro hx
      cases hx
    have h2 : ¬ (it.status = ItemStatus.conflict ∧ it.resolved_data.isSome = true) := by
      rw [hst]
      rintro ⟨hx, -⟩
      cases hx
    simp [dispatchItem, if_neg h1, if_neg h2]

/-- Witness for the amended C6 at the one-entry store. -/
theorem C6_amended_witness :
    ((updateSyncStatus 100 "t1" SyncStatus.error none c6Store).queue = c6Store.queue) ∧
    (∀ t2 ∈ (updateSyncStatus 100 "t1" SyncStatus.error none c6Store).tasks,
        t2.id = "t1" →
        t2.sync_status = SyncStatus.error ∧ t2.last_synced_at = some 100) ∧
    (∀ t2 ∈ (updateSyncStatus 100 "t1" SyncStatus.error none c6Store).tasks,
        t2.id ≠ "t1" → t2 ∈ c6Store.tasks) ∧
    (∀ acc it, it.status = ItemStatus.error →
        (dispatchItem 100 acc it).errors.length = acc.errors.length + 1 ∧
        (dispatchItem 100 acc it).failCount = acc.failCount + 1 ∧
        (dispatchItem 100 acc it).store
          = updateSyncStatus 100 it.client_id SyncStatus.error none acc.store) :=
  C6_amended_error_outcome c6Store 100 "t1"


/-- Counterexample to C3 as stated: createTask against an empty store
with the record INSERT succeeding and the queue INSERT throwing leaves
the task row persisted and the Mutation Log empty — a record change with
no log entry, which the claim says cannot happen. -/
theorem C3_counterexample_partial_application :
    ((createTaskRun ⟨[], []⟩ 0 "t9" "q9" {} false true).2.tasks
        = [buildTask 0 "t9" {}]) ∧
    ((createTaskRun ⟨[], []⟩ 0 "t9" "q9" {} false true).2.queue = []) := by
  decide

/-- C3 amended: each mutating operation issues the record write and the
log append as two separate statements with no transaction.  If the first
statement throws nothing is applied, and when both succeed both effects
are applied; but if the log append throws, the already-committed record
write stays while the queue is untouched, so the operations are not
atomic. -/
theorem C3_amended_two_statements_no_transaction (s : Store) (now : Nat)
    (gid qid id : String) (td u : TaskUpdates) :
    ((createTaskRun s now gid qid td true false).2 = s) ∧
    ((createTaskRun s now gid qid td false false).2.tasks
        = s.tasks ++ [buildTask now gid td]) ∧
    ((createTaskRun s now gid qid td false false).2.queue
        = s.queue ++ [⟨qid, (buildTask now gid td).id, Op.create,
            Payload.snapshot (buildTask now gid td), now, 0, none⟩]) ∧
    ((createTaskRun s now gid qid td false true).2.tasks
        = s.tasks ++ [buildTask now gid td]) ∧
    ((createTaskRun s now gid qid td false true).2.queue = s.queue) ∧
    ((updateTaskRun s now qid id u true false).2 = s) ∧
    ((updateTaskRun s now qid id u false true).2.queue = s.queue) ∧
    ((deleteTaskRun s now qid id true false).2 = s) ∧
    ((deleteTaskRun s now qid id false true).2.queue = s.queue) := by
  refine ⟨rfl, rfl, rfl, rfl, rfl, ?_, ?_, ?_, ?_⟩
  · cases hg : getTask s id with
    | none => simp [updateTaskRun, hg]
    | some existing => simp [updateTaskRun, hg]
  · cases hg : getTask s id with
    | none => simp [updateTaskRun, hg]
    | some existing => simp [updateTaskRun, hg, updateTaskRowStmt]
  · cases hg : getTask s id with
    | none => simp [deleteTaskRun, hg]
    | some existing => simp [deleteTaskRun, hg]
  · cases hg : getTask s id with
    | none => simp [deleteTaskRun, hg]
    | some existing => simp [deleteTaskRun, hg, deleteTaskRowStmt]

/-- C4: when a batch send fails, handleSyncError persists the
incremented retry count together with the failure message on the entry
(and only that entry) regardless of the threshold, never removes the
entry, and sets the underlying record's status to error exactly when the
new count exceeds maxRetries (whose default is 3, so a fourth failure of
an entry crosses the threshold). -/
theorem C4_handleSyncError_retry_policy (cfg : Config) (s : Store)
    (item : SyncQueueItem) (msg : String) :
    (∀ q ∈ (handleSyncError cfg item msg s).queue, q.id = item.id →
        q.retry_count = item.retry_count + 1 ∧ q.error_message = some msg) ∧
    (∀ q ∈ (handleSyncError cfg item msg s).queue, q.id ≠ item.id → q ∈ s.queue) ∧
    ((handleSyncError cfg item msg s).queue.length = s.queue.length) ∧
    (item.retry_count + 1 ≤ cfg.maxRetries →
        (handleSyncError cfg item msg s).tasks = s.tasks) ∧
    (cfg.maxRetries < item.retry_count + 1 →
        ∀ t2 ∈ (handleSyncError cfg item msg s).tasks, t2.id = item.task_id →
          t2.sync_status = SyncStatus.error) ∧
    defaultConfig.maxRetries = 3 := by
  unfold handleSyncError
  by_cases hcross : item.retry_count + 1 > cfg.maxRetries
  · rw [if_pos hcross]
    refine ⟨?_, ?_, ?_, ?_, ?_, rfl⟩
    · intro q hq hid
      replace hq : q ∈ (setTaskErrorStmt item.task_id s).queue.map
          (retryRow item.id (item.retry_count + 1) msg) := hq
      obtain ⟨a, hmem, ha⟩ := List.mem_map.mp hq
      subst ha
      by_cases hcase : a.id = item.id
      · unfold retryRow
        rw [if_pos hcase]
        exact ⟨rfl, rfl⟩
      · unfold retryRow at hid
        rw [if_neg hcase] at hid
        exact absurd hid hcase
    · intro q hq hid
      replace hq : q ∈ (setTaskErrorStmt item.task_id s).queue.map
          (retryRow item.id (item.retry_count + 1) msg) := hq
      obtain ⟨a, hmem, ha⟩ := List.mem_map.mp hq
      subst ha
      by_cases hcase : a.id = item.id
      · unfold retryRow at hid
        rw [if_pos hcase] at hid
        exact absurd hcase (by simpa using hid)
      · rw [show retryRow item.id (item.retry_count + 1) msg a = a from if_neg hcase]
        exact hmem
    · exact List.length_map _ _
    · intro hle
      omega
    · intro _ t2 ht2 hid
      replace ht2 : t2 ∈ s.tasks.map (errRow item.task_id) := ht2
      obtain ⟨a, hmem, ha⟩ := List.mem_map.mp ht2
      subst ha
      unfold errRow
      by_cases hcase : a.id = item.task_id
      · rw [if_pos hcase]
      · unfold errRow at hid
        rw [if_neg hcase] at hid
        exact absurd hid hcase
  · rw [if_neg hcross]
    refine ⟨?_, ?_, ?_, ?_, ?_, rfl⟩
    · intro q hq hid
      replace hq : q ∈ s.queue.map (retryRow item.id (item.retry_count + 1) msg) := hq
      obtain ⟨a, hmem, ha⟩ := List.mem_map.mp hq
      subst ha
      by_cases hcase : a.id = item.id
      · unfold retryRow
        rw [if_pos hcase]
        exact ⟨rfl, rfl⟩
      · unfold retryRow at hid
        rw [if_neg hcase] at hid
        exact absurd hid hcase
    · intro q hq hid
      replace hq : q ∈ s.queue.map (retryRow item.id (item.retry_count + 1) msg) := hq
      obtain ⟨a, hmem, ha⟩ := List.mem_map.mp hq
      subst ha
      by_cases hcase : a.id = item.id
      · unfold retryRow at hid
        rw [if_pos hcase] at hid
        exact absurd hcase (by simpa using hid)
      · rw [show retryRow item.id (item.retry_count + 1) msg a = a from if_neg hcase]
        exact hmem
    · exact List.length_map _ _
    · intro _
      rfl
    · intro hlt
      omega
  
/-- Counterexample to C9 as stated: sync() takes no lock, so under the
schedule where both runs read the queue before either writes, the record
t1 is marked synced twice and its queue DELETE is issued twice. -/
theorem C9_counterexample_double_processing :
    markCount (execSched 50 raceSched world0).log "t1" = 2 ∧
    delCount (execSched 50 raceSched world0).log "t1" = 2 := by
  decide

/-- C9 amended: the source has no mutual-exclusion guard around sync();
there is an interleaving of two concurrent runs that double-marks a
record and issues its Mutation Log deletion twice, while serialized runs
process the entry exactly once. -/
theorem C9_amended_no_lock_race :
    (∃ sched : List Bool,
        markCount (execSched 50 sched world0).log "t1" = 2 ∧
        delCount (execSched 50 sched world0).log "t1" = 2) ∧
    markCount (execSched 50 serialSched world0).log "t1" = 1 ∧
    delCount (execSched 50 serialSched world0).log "t1" = 1 :=
  ⟨⟨raceSched, by decide⟩, by decide⟩


theorem updRow_id (id : String) (u : Task) (now : Nat) (t : Task) :
    (updRow id u now t).id = t.id := by
  unfold updRow
  split <;> rfl

theorem find?_map_id_preserving (f : Task → Task) (hid : ∀ t, (f t).id = t.id)
    (rows : List Task) (i : String) :
    (rows.map f).find? (fun t => t.id == i)
      = (rows.find? (fun t => t.id == i)).map f := by
  rw [List.find?_map]
  have hcomp : ((fun t : Task => t.id == i) ∘ f) = fun t : Task => t.id == i := by
    funext t
    simp [Function.comp, hid t]
  rw [hcomp]

/-- C10: updateTask on a live record with a fields object containing
is_deleted = true persists the soft delete — a subsequent getTask returns
none — while appending an update (not delete) Mutation Log entry carrying
those fields. -/
theorem C10_updateTask_soft_deletes (s : Store) (now : Nat) (qid id : String)
    (u : TaskUpdates) (t : Task) (hget : getTask s id = some t)
    (hdel : u.is_deleted = some true) :
    getTask (updateTask s now qid id u).2 id = none ∧
    (updateTask s now qid id u).2.queue
      = s.queue ++ [⟨qid, id, Op.update, Payload.fieldsOf u, now, 0, none⟩] := by
  have hfr : findRow s.tasks id = some t ∧ t.is_deleted = false := by
    unfold getTask at hget
    split at hget
    · exact absurd hget (by simp)
    · rename_i row hrow
      by_cases hd : row.is_deleted = true
      · rw [if_pos hd] at hget
        exact absurd hget (by simp)
      · rw [if_neg hd] at hget
        cases hget
        exact ⟨hrow, by simpa using hd⟩
  obtain ⟨hrow, hndel⟩ := hfr
  have htid : (t.id == id) = true := by
    have h2 : s.tasks.find? (fun t2 => t2.id == id) = some t := hrow
    have h3 := List.find?_some h2
    simpa using h3
  have hteq : t.id = id := by simpa using htid
  constructor
  · have htasks : (updateTask s now qid id u).2.tasks
        = s.tasks.map (updRow id (mergeTask t u now) now) := by
      unfold updateTask updateTaskRun
      rw [hget]
      rfl
    have hfind : findRow ((updateTask s now qid id u).2.tasks) id
        = some (updRow id (mergeTask t u now) now t) := by
      rw [htasks]
      unfold findRow
      rw [find?_map_id_preserving _ (updRow_id id (mergeTask t u now) now) s.tasks id]
      rw [show s.tasks.find? (fun t2 => t2.id == id) = some t from hrow]
      rfl
    have hdead : (updRow id (mergeTask t u now) now t).is_deleted = true := by
      unfold updRow
      rw [if_pos hteq]
      show (mergeTask t u now).is_deleted = true
      unfold mergeTask
      show u.is_deleted.getD t.is_deleted = true
      rw [hdel]
      rfl
    unfold getTask
    rw [hfind]
    simp [hdead]
  · unfold updateTask updateTaskRun
    rw [hget]
    rfl

/-- Witness for C10 on a store holding the live record t1. -/
theorem C10_witness :
    getTask (updateTask ⟨[t1], []⟩ 5 "q7" "t1" delUpd).2 "t1" = none ∧
    (updateTask ⟨[t1], []⟩ 5 "q7" "t1" delUpd).2.queue
      = [] ++ [⟨"q7", "t1", Op.update, Payload.fieldsOf delUpd, 5, 0, none⟩] :=
  C10_updateTask_soft_deletes ⟨[t1], []⟩ 5 "q7" "t1" delUpd t1 (by decide) (by decide)


theorem dispatchItem_counts (now : Nat) (acc : Acc) (it : ProcessedItem) :
    (dispatchItem now acc it).successCount + (dispatchItem now acc it).failCount
      = acc.successCount + acc.failCount + 1 ∧
    (dispatchItem now acc it).errors.length + acc.failCount
      = (dispatchItem now acc it).failCount + acc.errors.length := by
  unfold dispatchItem
  split_ifs with h1 h2 <;> constructor <;> simp <;> omega

theorem failItem_counts (cfg : Config) (now : Nat) (msg : String) (acc : Acc)
    (e : SyncQueueItem) :
    (failItem cfg now msg acc e).successCount = acc.successCount ∧
    (failItem cfg now msg acc e).failCount = acc.failCount + 1 ∧
    (failItem cfg now msg acc e).errors.length = acc.errors.length + 1 := by
  unfold failItem
  refine ⟨rfl, rfl, ?_⟩
  simp

theorem foldl_dispatch_counts (now : Nat) (items : List ProcessedItem) :
    ∀ acc : Acc,
      ((items.foldl (dispatchItem now) acc).successCount
          + (items.foldl (dispatchItem now) acc).failCount
        = acc.successCount + acc.failCount + items.length) ∧
      ((items.foldl (dispatchItem now) acc).errors.length + acc.failCount
        = (items.foldl (dispatchItem now) acc).failCount + acc.errors.length) := by
  induction items with
  | nil =>
    intro acc
    refine ⟨by simp, ?_⟩
    rw [List.foldl_nil]
    omega
  | cons a l ih =>
    intro acc
    obtain ⟨hs1, hs2⟩ := dispatchItem_counts now acc a
    obtain ⟨hr1, hr2⟩ := ih (dispatchItem now acc a)
    rw [List.foldl_cons]
    constructor
    · rw [List.length_cons]
      omega
    · omega

theorem foldl_fail_counts (cfg : Config) (now : Nat) (msg : String)
    (b : List SyncQueueItem) :
    ∀ acc : Acc,
      ((b.foldl (failItem cfg now msg) acc).successCount
          + (b.foldl (failItem cfg now msg) acc).failCount
        = acc.successCount + acc.failCount + b.length) ∧
      ((b.foldl (failItem cfg now msg) acc).errors.length + acc.failCount
        = (b.foldl (failItem cfg now msg) acc).failCount + acc.errors.length) := by
  induction b with
  | nil =>
    intro acc
    refine ⟨by simp, ?_⟩
    rw [List.foldl_nil]
    omega
  | cons a l ih =>
    intro acc
    obtain ⟨hs1, hs2, hs3⟩ := failItem_counts cfg now msg acc a
    obtain ⟨hr1, hr2⟩ := ih (failItem cfg now msg acc a)
    rw [List.foldl_cons]
    constructor
    · rw [List.length_cons]
      omega
    · omega

theorem syncBatches_counts (cfg : Config) (now : Nat) (net : Net)
    (bs : List (List SyncQueueItem)) :
    ∀ (i : Nat) (acc : Acc),
      ((syncBatches cfg now net i acc bs).successCount
          + (syncBatches cfg now net i acc bs).failCount
        = acc.successCount + acc.failCount + expectedHandled net i bs) ∧
      ((syncBatches cfg now net i acc bs).errors.length + acc.failCount
        = (syncBatches cfg now net i acc bs).failCount + acc.errors.length) := by
  induction bs with
  | nil =>
    intro i acc
    constructor <;> simp only [syncBatches, expectedHandled] <;> omega
  | cons b rest ih =>
    intro i acc
    cases hnet : net i with
    | ok items =>
      obtain ⟨hf1, hf2⟩ := foldl_dispatch_counts now items acc
      obtain ⟨hr1, hr2⟩ := ih (i + 1) (items.foldl (dispatchItem now) acc)
      have hun : syncBatches cfg now net i acc (b :: rest)
          = syncBatches cfg now net (i + 1) (items.foldl (dispatchItem now) acc) rest := by
        simp only [syncBatches, hnet]
      have hexp : expectedHandled net i (b :: rest)
          = items.length + expectedHandled net (i + 1) rest := by
        simp only [expectedHandled, hnet]
      rw [hun, hexp]
      constructor <;> omega
    | error msg =>
      obtain ⟨hf1, hf2⟩ := foldl_fail_counts cfg now msg b acc
      obtain ⟨hr1, hr2⟩ := ih (i + 1) (b.foldl (failItem cfg now msg) acc)
      have hun : syncBatches cfg now net i acc (b :: rest)
          = syncBatches cfg now net (i + 1) (b.foldl (failItem cfg now msg) acc) rest := by
        simp only [syncBatches, hnet]
      have hexp : expectedHandled net i (b :: rest)
          = b.length + expectedHandled net (i + 1) rest := by
        simp only [expectedHandled, hnet]
      rw [hun, hexp]
      constructor <;> omega

/-- C5: for every queue state and every per-batch peer behaviour
(responses or thrown sends), a sync run with a positive batch size
accounts for every batch: the aggregate success flag is true exactly when
no failures occurred, the error list carries one entry per failure, and
the synced plus failed counts equal the total outcomes over ALL batches —
so a transport failure in one batch never aborts the remaining ones. -/
theorem C5_sync_processes_all_batches (cfg : Config) (now : Nat) (net : Net)
    (s : Store) (hbs : 0 < cfg.batchSize) :
    ((sync cfg now net s).1.success = true ↔ (sync cfg now net s).1.failed_items = 0) ∧
    ((sync cfg now net s).1.errors.length = (sync cfg now net s).1.failed_items) ∧
    ((sync cfg now net s).1.synced_items + (sync cfg now net s).1.failed_items
      = expectedHandled net 0 (chunks cfg.batchSize (sortQueue s.queue))) := by
  obtain ⟨h1, h2⟩ := syncBatches_counts cfg now net
    (chunks cfg.batchSize (sortQueue s.queue)) 0 ⟨s, 0, 0, []⟩
  simp at h1 h2
  refine ⟨?_, ?_, ?_⟩
  · constructor
    · intro hs
      replace hs : decide ((syncBatches cfg now net 0 ⟨s, 0, 0, []⟩
          (chunks cfg.batchSize (sortQueue s.queue))).failCount = 0) = true := hs
      exact of_decide_eq_true hs
    · intro hz
      replace hz : (syncBatches cfg now net 0 ⟨s, 0, 0, []⟩
          (chunks cfg.batchSize (sortQueue s.queue))).failCount = 0 := hz
      exact decide_eq_true hz
  · show (syncBatches cfg now net 0 ⟨s, 0, 0, []⟩
        (chunks cfg.batchSize (sortQueue s.queue))).errors.length
      = (syncBatches cfg now net 0 ⟨s, 0, 0, []⟩
        (chunks cfg.batchSize (sortQueue s.queue))).failCount
    omega
  · show (syncBatches cfg now net 0 ⟨s, 0, 0, []⟩
        (chunks cfg.batchSize (sortQueue s.queue))).successCount
      + (syncBatches cfg now net 0 ⟨s, 0, 0, []⟩
        (chunks cfg.batchSize (sortQueue s.queue))).failCount
      = expectedHandled net 0 (chunks cfg.batchSize (sortQueue s.queue))
    omega

/-- Witness for C5 with the default configuration and a peer whose every
batch send throws. -/
theorem C5_witness :
    ((sync defaultConfig 7 downNet c1Store).1.success = true ↔
      (sync defaultConfig 7 downNet c1Store).1.failed_items = 0) ∧
    ((sync defaultConfig 7 downNet c1Store).1.errors.length
      = (sync defaultConfig 7 downNet c1Store).1.failed_items) ∧
    ((sync defaultConfig 7 downNet c1Store).1.synced_items
        + (sync defaultConfig 7 downNet c1Store).1.failed_items
      = expectedHandled downNet 0 (chunks defaultConfig.batchSize (sortQueue c1Store.queue))) :=
  C5_sync_processes_all_batches defaultConfig 7 downNet c1Store (by decide)


theorem createTask_queue (s : Store) (now : Nat) (gid qid : String)
    (td : TaskUpdates) :
    (createTask s now gid qid td).2.queue
      = s.queue ++ [⟨qid, (buildTask now gid td).id, Op.create,
          Payload.snapshot (buildTask now gid td), now, 0, none⟩] := rfl

theorem updateTask_queue (s : Store) (now : Nat) (qid id : String)
    (u : TaskUpdates) :
    (updateTask s now qid id u).2.queue = s.queue ∨
    (updateTask s now qid id u).2.queue
      = s.queue ++ [⟨qid, id, Op.update, Payload.fieldsOf u, now, 0, none⟩] := by
  unfold updateTask updateTaskRun
  cases hg : getTask s id with
  | none => exact Or.inl rfl
  | some t => exact Or.inr rfl

theorem deleteTask_queue (s : Store) (now : Nat) (qid id : String) :
    (deleteTask s now qid id).2.queue = s.queue ∨
    (deleteTask s now qid id).2.queue
      = s.queue ++ [⟨qid, id, Op.delete, Payload.emptyObj, now, 0, none⟩] := by
  unfold deleteTask deleteTaskRun
  cases hg : getTask s id with
  | none => exact Or.inl rfl
  | some t => exact Or.inr rfl

/-- Queue well-formedness: entries strictly ordered by creation time and
all stamped before the clock. -/
def QOk (q : List SyncQueueItem) (clk : Nat) : Prop :=
  q.Pairwise (fun a b => a.created_at < b.created_at) ∧ ∀ e ∈ q, e.created_at < clk

theorem QOk_succ (q : List SyncQueueItem) (clk : Nat) (h : QOk q clk) :
    QOk q (clk + 1) :=
  ⟨h.1, fun e he => Nat.lt_succ_of_lt (h.2 e he)⟩

theorem QOk_append (q : List SyncQueueItem) (clk : Nat) (e : SyncQueueItem)
    (h : QOk q clk) (he : e.created_at = clk) : QOk (q ++ [e]) (clk + 1) := by
  obtain ⟨hp, hb⟩ := h
  constructor
  · rw [List.pairwise_append]
    refine ⟨hp, List.pairwise_singleton _ _, ?_⟩
    intro a ha b hb2
    rw [List.mem_singleton] at hb2
    subst hb2
    rw [he]
    exact hb a ha
  · intro x hx
    rw [List.mem_append] at hx
    cases hx with
    | inl hx2 => exact Nat.lt_succ_of_lt (hb x hx2)
    | inr hx2 =>
      rw [List.mem_singleton] at hx2
      subst hx2
      omega

theorem applyMut_queue_inv (p : Store × Nat) (m : Mut) (h : QOk p.1.queue p.2) :
    QOk (applyMut p m).1.queue (applyMut p m).2 := by
  cases m with
  | mkCreate td =>
    show QOk (createTask p.1 p.2 (freshT p.2) (freshQ p.2) td).2.queue (p.2 + 1)
    rw [createTask_queue p.1 p.2 (freshT p.2) (freshQ p.2) td]
    exact QOk_append _ _ _ h rfl
  | mkUpdate id u =>
    show QOk (updateTask p.1 p.2 (freshQ p.2) id u).2.queue (p.2 + 1)
    rcases updateTask_queue p.1 p.2 (freshQ p.2) id u with hq | hq
    · rw [hq]
      exact QOk_succ _ _ h
    · rw [hq]
      exact QOk_append _ _ _ h rfl
  | mkDelete id =>
    show QOk (deleteTask p.1 p.2 (freshQ p.2) id).2.queue (p.2 + 1)
    rcases deleteTask_queue p.1 p.2 (freshQ p.2) id with hq | hq
    · rw [hq]
      exact QOk_succ _ _ h
    · rw [hq]
      exact QOk_append _ _ _ h rfl

theorem runMuts_inv (ms : List Mut) :
    ∀ (s : Store) (clk : Nat), QOk s.queue clk →
      QOk (runMuts s clk ms).1.queue (runMuts s clk ms).2 := by
  induction ms with
  | nil =>
    intro s clk h
    exact h
  | cons m rest ih =>
    intro s clk h
    have h1 := applyMut_queue_inv (s, clk) m h
    show QOk (List.foldl applyMut (applyMut (s, clk) m) rest).1.queue
      (List.foldl applyMut (applyMut (s, clk) m) rest).2
    exact ih (applyMut (s, clk) m).1 (applyMut (s, clk) m).2 h1

theorem sortQueue_of_sorted (q : List SyncQueueItem)
    (h : q.Pairwise fun a b => a.created_at < b.created_at) : sortQueue q = q := by
  unfold sortQueue
  exact List.Sorted.insertionSort_eq (List.Pairwise.imp (fun hab => Nat.le_of_lt hab) h)

/-- C2: every record-service mutation appends at most one Mutation Log
entry stamped with the mutation instant (exactly one for create, and one
for update/delete on a live record), and for every sequence of local
mutations started from an empty queue the queue is strictly ordered by
creation time, so the drained order sync() reads (ORDER BY created_at
ASC) equals insertion order — in particular the drained entries of any
single record appear oldest-created-first.  The entry's created_at stamp
is modelled from the spec because the sync_queue schema (src/db) is not
among the staged sources. -/
theorem C2_mutation_log_creation_order (tasks : List Task) (ms : List Mut)
    (rid : String) :
    (sortQueue (runMuts ⟨tasks, []⟩ 0 ms).1.queue = (runMuts ⟨tasks, []⟩ 0 ms).1.queue) ∧
    ((sortQueue (runMuts ⟨tasks, []⟩ 0 ms).1.queue).filter
        (fun q => decide (q.task_id = rid))
      = (runMuts ⟨tasks, []⟩ 0 ms).1.queue.filter fun q => decide (q.task_id = rid)) ∧
    ((runMuts ⟨tasks, []⟩ 0 ms).1.queue.Pairwise fun a b => a.created_at < b.created_at) ∧
    (∀ (s : Store) (now : Nat) (gid qid : String) (td : TaskUpdates),
        (createTask s now gid qid td).2.queue
          = s.queue ++ [⟨qid, (buildTask now gid td).id, Op.create,
              Payload.snapshot (buildTask now gid td), now, 0, none⟩]) ∧
    (∀ (s : Store) (now : Nat) (qid id : String) (u : TaskUpdates),
        (updateTask s now qid id u).2.queue = s.queue ∨
        (updateTask s now qid id u).2.queue
          = s.queue ++ [⟨qid, id, Op.update, Payload.fieldsOf u, now, 0, none⟩]) ∧
    (∀ (s : Store) (now : Nat) (qid id : String),
        (deleteTask s now qid id).2.queue = s.queue ∨
        (deleteTask s now qid id).2.queue
          = s.queue ++ [⟨qid, id, Op.delete, Payload.emptyObj, now, 0, none⟩]) := by
  have hinv := runMuts_inv ms ⟨tasks, []⟩ 0 ⟨List.Pairwise.nil, by intro e he; cases he⟩
  have hsort := sortQueue_of_sorted _ hinv.1
  exact ⟨hsort, by rw [hsort], hinv.1, createTask_queue, updateTask_queue, deleteTask_queue⟩

end OfflineSync
